/-
Verification of the incremental-form PID controller core (C++ implementation):
the ZOH discretizer `zoh_Fy`, the second-order `MeasurementFilter`, the
`anti_windup` policy and the `PIDController` orchestrator.

The embedding is a direct shallow translation of the C++ sources
(`zoh_pid.cpp`, `measurement_filter.cpp`, `anti_windup.cpp`, `pid.cpp`).
`double` arithmetic is modelled over the reals `ℝ` (with `Real.exp` for
`exp`).  The `Tx_old_` member of the filter is a `double` initialised to a
quiet-NaN sentinel and only ever compared with `Tx != Tx_old_`; since NaN
compares unequal to everything, this is modelled by `Option ℝ` where `none`
is the sentinel (`some t ≠ some Tx ↔ t ≠ Tx`, and `none` never equals
`some Tx`).  The `initialized_` flag exists separately, exactly as in the
source.  Mutation of member state is modelled by explicit state passing:
each stateful C++ method becomes a function returning the updated record.
-/
import Mathlib

set_option maxHeartbeats 1000000

noncomputable section

/-- The six discrete state-space coefficients returned by the discretizer
(struct `FilterParams` in `zoh_pid.h`). -/
structure FilterParams where
  a11 : ℝ
  a12 : ℝ
  a21 : ℝ
  a22 : ℝ
  b1 : ℝ
  b2 : ℝ

/-- Exact zero-order-hold discretization of the second-order measurement
filter (`zoh_Fy` in `zoh_pid.cpp`).  Pure function of `TfTs` and `Tx`. -/
def zoh_Fy (TfTs Tx : ℝ) : FilterParams :=
  let h1 := Tx / TfTs
  let h2 := Real.exp (-h1)
  let h3 := h1 * h2
  let h4 := h3 / TfTs
  { a11 := h2 + h3
    a12 := h2
    a21 := -h4
    a22 := h2 - h3
    b1 := 1 - h2 - h3
    b2 := h4 }

/-- Output pair of the measurement filter (struct `FilterOutput` in
`measurement_filter.h`). -/
structure FilterOutput where
  yf : ℝ
  dyf : ℝ

/-- State of one `MeasurementFilter` instance: the fixed `TfTs_`, the six
cached coefficients, the filter state `yf_`, `dyf_`, the last execution
period `Tx_old_` (`none` models the quiet-NaN sentinel) and the
`initialized_` flag. -/
structure MeasurementFilter where
  TfTs : ℝ
  a11 : ℝ
  a12 : ℝ
  a21 : ℝ
  a22 : ℝ
  b1 : ℝ
  b2 : ℝ
  yf : ℝ
  dyf : ℝ
  Tx_old : Option ℝ
  initialized : Bool

/-- The `MeasurementFilter(TfTs)` constructor: coefficients and state
zeroed, `Tx_old_` set to the NaN sentinel, `initialized_` false. -/
def MeasurementFilter.init (TfTs : ℝ) : MeasurementFilter :=
  { TfTs := TfTs
    a11 := 0, a12 := 0, a21 := 0, a22 := 0, b1 := 0, b2 := 0
    yf := 0, dyf := 0
    Tx_old := none
    initialized := false }

/-- The six cached coefficients of a filter state, bundled. -/
def MeasurementFilter.coeffs (f : MeasurementFilter) : FilterParams :=
  { a11 := f.a11, a12 := f.a12, a21 := f.a21, a22 := f.a22, b1 := f.b1, b2 := f.b2 }

/-- The coefficient selection at the top of `MeasurementFilter::operator()`:
re-discretize via `zoh_Fy` when not yet initialized or `Tx` differs from
`Tx_old_` (the C++ `Tx != Tx_old_` test, always true against the NaN
sentinel, hence the `Option` model), else keep the cached coefficients. -/
def MeasurementFilter.params (f : MeasurementFilter) (Tx : ℝ) : FilterParams :=
  if f.initialized = false ∨ f.Tx_old ≠ some Tx then zoh_Fy f.TfTs Tx
  else f.coeffs

/-- Model of `MeasurementFilter::operator()(y, Tx)`: select the coefficients (see
`MeasurementFilter.params`), run the state update and return the new
state together with `(yf, dyf)`.  The C++ sets `initialized_ = true`
inside the re-discretization branch and `Tx_old_ = Tx` in the state
update; writing `initialized := true` unconditionally here is the same
function, because whenever the branch is skipped the flag was already
true (the branch condition contains `!initialized_`). -/
def MeasurementFilter.apply (f : MeasurementFilter) (y Tx : ℝ) :
    MeasurementFilter × FilterOutput :=
  let p : FilterParams := f.params Tx
  let yf_prev := f.yf
  let yf_new := p.a11 * yf_prev + p.a12 * f.dyf + p.b1 * y
  let dyf_new := p.a21 * yf_prev + p.a22 * f.dyf + p.b2 * y
  ({ f with
      a11 := p.a11, a12 := p.a12, a21 := p.a21, a22 := p.a22
      b1 := p.b1, b2 := p.b2
      yf := yf_new, dyf := dyf_new
      Tx_old := some Tx
      initialized := true },
   { yf := yf_new, dyf := dyf_new })

/-- Model of `MeasurementFilter::reset()`: zero `yf_`, `dyf_`, restore the NaN
sentinel in `Tx_old_`, clear `initialized_`.  The cached coefficients are
left untouched, exactly as in the source. -/
def MeasurementFilter.reset (f : MeasurementFilter) : MeasurementFilter :=
  { f with yf := 0, dyf := 0, Tx_old := none, initialized := false }

/-- Windup mode enumeration (`anti_windup.h`). -/
inductive WindupMode where
  | NONE
  | UPPER
  | LOWER
  | BOTH
deriving DecidableEq, Repr

/-- Model of `anti_windup(Dui, windup)` from `anti_windup.cpp`: the first clause
fires for `BOTH` and `LOWER`, the second for `BOTH` and `UPPER`. -/
def anti_windup (Dui : ℝ) (windup : WindupMode) : ℝ :=
  let Dui1 :=
    if windup = WindupMode.BOTH ∨ windup = WindupMode.LOWER then max Dui 0 else Dui
  if windup = WindupMode.BOTH ∨ windup = WindupMode.UPPER then min Dui1 0 else Dui1

/-- The same two clauses applied in the opposite order, used to state the
order-independence part of the anti-windup claim. -/
def anti_windup_rev (Dui : ℝ) (windup : WindupMode) : ℝ :=
  let Dui1 :=
    if windup = WindupMode.BOTH ∨ windup = WindupMode.UPPER then min Dui 0 else Dui
  if windup = WindupMode.BOTH ∨ windup = WindupMode.LOWER then max Dui1 0 else Dui1

/-- Inputs of one tick of `PIDController::operator()`. -/
structure StepInput where
  r : ℝ
  y : ℝ
  uff : ℝ
  uman : ℝ
  utrack : ℝ
  Tx : ℝ
  track : Bool
  auto_mode : Bool
  windup : WindupMode

/-- State of one `PIDController` instance: the configuration members
(`kp_` … `b_`; note `b_` is an ordinary mutable member in the C++ class),
the four signal states and the owned measurement filter. -/
structure PIDController where
  kp : ℝ
  ki : ℝ
  kd : ℝ
  umin : ℝ
  umax : ℝ
  u0 : ℝ
  b : ℝ
  u_old : ℝ
  up_old : ℝ
  ud_old : ℝ
  uff_old : ℝ
  filter : MeasurementFilter

/-- The `PIDController` constructor: stores the configuration, zeroes the
four signal states, and constructs the owned filter from `TfTs`. -/
def PIDController.init (kp ki kd TfTs umin umax u0 b : ℝ) : PIDController :=
  { kp := kp, ki := ki, kd := kd, umin := umin, umax := umax, u0 := u0, b := b
    u_old := 0, up_old := 0, ud_old := 0, uff_old := 0
    filter := MeasurementFilter.init TfTs }

/-- The state overrides at the top of the `auto_mode` branch of
`PIDController::operator()`: the `ki == 0` (P/PD) reset, which also
overwrites the member `b_` with `1`, followed by the tracking-mode
reset.  Outside automatic mode neither override runs. -/
def PIDController.override (c : PIDController) (inp : StepInput) : PIDController :=
  if inp.auto_mode = true then
    let c0 :=
      if c.ki = 0 then
        { c with u_old := c.u0, up_old := 0, ud_old := 0, uff_old := 0, b := 1 }
      else c
    if inp.track = true then
      { c0 with u_old := inp.utrack, up_old := 0, ud_old := 0, uff_old := 0 }
    else c0
  else c

/-- The part of `PIDController::operator()` that follows the filter call,
abstracted over the filter result: apply the overrides, compute the four
increments and the pre-saturation output (or take `uman` in manual mode),
saturate with `max(min(u, umax_), umin_)`, and store the new signal
states. -/
def PIDController.stepCore (c : PIDController) (inp : StepInput)
    (f' : MeasurementFilter) (yf dyf : ℝ) : PIDController × ℝ :=
  let c1 := c.override inp
  let u_pre :=
    if inp.auto_mode = true then
      let Dup := c1.kp * (c1.b * inp.r - yf) - c1.up_old
      let Dui := anti_windup (c1.ki * (inp.r - yf) * inp.Tx) inp.windup
      let Dud := (-c1.kd * dyf - c1.ud_old) / inp.Tx
      let Duff := inp.uff - c1.uff_old
      c1.u_old + (Dup + Dui + Dud + Duff)
    else inp.uman
  let u := max (min u_pre c.umax) c.umin
  ({ c1 with
      filter := f'
      u_old := u
      up_old := c1.kp * (c1.b * inp.r - yf)
      ud_old := -c1.kd * dyf
      uff_old := inp.uff },
   u)

/-- Model of `PIDController::operator()`: run the filter on `(y, Tx)` first, then
the rest of the tick. -/
def PIDController.step (c : PIDController) (inp : StepInput) : PIDController × ℝ :=
  let fr := c.filter.apply inp.y inp.Tx
  c.stepCore inp fr.1 fr.2.yf fr.2.dyf

/-- Model of `PIDController::reset()`: zero the four signal states and reset the
owned filter. -/
def PIDController.reset (c : PIDController) : PIDController :=
  { c with u_old := 0, up_old := 0, ud_old := 0, uff_old := 0
           filter := c.filter.reset }

/-- Replay a list of tick inputs through a controller, collecting the
output sequence and the final controller state. -/
def PIDController.run (c : PIDController) : List StepInput → List ℝ × PIDController
  | [] => ([], c)
  | inp :: rest =>
      let s := c.step inp
      let r := s.1.run rest
      (s.2 :: r.1, r.2)

end

/-- C4: the anti-windup rule.  `NONE` is the identity, `LOWER` is
`max(Dui, 0)`, `UPPER` is `min(Dui, 0)`, `BOTH` pins the increment to
exactly `0`, and the two clauses commute (applying them in the opposite
order computes the same function). -/
theorem anti_windup_spec (Dui : ℝ) :
    anti_windup Dui WindupMode.NONE = Dui ∧
    anti_windup Dui WindupMode.LOWER = max Dui 0 ∧
    anti_windup Dui WindupMode.UPPER = min Dui 0 ∧
    anti_windup Dui WindupMode.BOTH = 0 ∧
    (∀ w : WindupMode, anti_windup_rev Dui w = anti_windup Dui w) := by
  have hBOTH : anti_windup Dui WindupMode.BOTH = 0 := by
    simp only [anti_windup]
    simp [min_eq_right (le_max_right Dui 0)]
  refine ⟨by simp [anti_windup], by simp [anti_windup], by simp [anti_windup], hBOTH, ?_⟩
  intro w
  cases w
  · simp [anti_windup, anti_windup_rev]
  · simp [anti_windup, anti_windup_rev]
  · simp [anti_windup, anti_windup_rev]
  · rw [hBOTH]
    simp only [anti_windup_rev]
    simp [max_eq_right (min_le_right Dui 0)]

/-- C1: the saturation invariant.  Whenever `umin ≤ umax`, the control
signal returned by a `step` call lies in `[umin, umax]`, for every
controller state and every tick inputs. -/
theorem step_saturation_invariant (c : PIDController) (inp : StepInput)
    (h : c.umin ≤ c.umax) :
    c.umin ≤ (c.step inp).2 ∧ (c.step inp).2 ≤ c.umax := by
  simp only [PIDController.step, PIDController.stepCore]
  exact ⟨le_max_right _ _, max_le (min_le_right _ _) h⟩

/-- Witness for C1 at a concrete configuration and input. -/
theorem step_saturation_invariant_witness :
    (-10 : ℝ) ≤ ((PIDController.init 1 (1/2) 0 10 (-10) 10 0 1).step
        ⟨1, 0, 0, 0, 0, 1, false, true, WindupMode.NONE⟩).2 ∧
      ((PIDController.init 1 (1/2) 0 10 (-10) 10 0 1).step
        ⟨1, 0, 0, 0, 0, 1, false, true, WindupMode.NONE⟩).2 ≤ 10 :=
  step_saturation_invariant (PIDController.init 1 (1/2) 0 10 (-10) 10 0 1)
    ⟨1, 0, 0, 0, 0, 1, false, true, WindupMode.NONE⟩ (by norm_num [PIDController.init])

/-- C5: manual-mode passthrough.  With `auto_mode = false` the returned
signal is `max(min(uman, umax), umin)` — a closed form mentioning none of
`r`, `y`, `uff`, `utrack`, `kp`, `ki`, `kd` or the windup flag, so the
output is independent of all of them — and it equals `uman` exactly
whenever `umin ≤ uman ≤ umax`. -/
theorem manual_mode_passthrough (c : PIDController) (inp : StepInput)
    (h : inp.auto_mode = false) :
    (c.step inp).2 = max (min inp.uman c.umax) c.umin ∧
      (c.umin ≤ inp.uman → inp.uman ≤ c.umax → (c.step inp).2 = inp.uman) := by
  have hmain : (c.step inp).2 = max (min inp.uman c.umax) c.umin := by
    simp [PIDController.step, PIDController.stepCore, h]
  refine ⟨hmain, fun h1 h2 => ?_⟩
  rw [hmain, min_eq_left h2, max_eq_left h1]

/-- Witness for C5: a manual tick with in-range `uman` returns `uman`. -/
theorem manual_mode_passthrough_witness :
    ((PIDController.init 1 2 3 10 (-10) 10 0 (1/2)).step
        ⟨7, 5, 1, 4, 9, 1, true, false, WindupMode.UPPER⟩).2 =
        max (min 4 (PIDController.init 1 2 3 10 (-10) 10 0 (1/2)).umax)
          (PIDController.init 1 2 3 10 (-10) 10 0 (1/2)).umin ∧
      ((PIDController.init 1 2 3 10 (-10) 10 0 (1/2)).umin ≤ 4 →
        (4:ℝ) ≤ (PIDController.init 1 2 3 10 (-10) 10 0 (1/2)).umax →
        ((PIDController.init 1 2 3 10 (-10) 10 0 (1/2)).step
          ⟨7, 5, 1, 4, 9, 1, true, false, WindupMode.UPPER⟩).2 = 4) :=
  manual_mode_passthrough (PIDController.init 1 2 3 10 (-10) 10 0 (1/2))
    ⟨7, 5, 1, 4, 9, 1, true, false, WindupMode.UPPER⟩ rfl

/-- C9 counterexample: the setpoint weight `b` is NOT immutable.  A
controller constructed with `b = 1/2` and `ki = 0` has `b = 1` after a
single automatic tick, because the `ki == 0` branch of `operator()`
overwrites the member `b_` with `1`. -/
theorem config_immutability_cex :
    ((PIDController.init 1 0 0 10 (-10) 10 0 (1/2)).step
        ⟨0, 0, 0, 0, 0, 1, false, true, WindupMode.NONE⟩).1.b ≠
      (PIDController.init 1 0 0 10 (-10) 10 0 (1/2)).b := by
  have hb : ((PIDController.init 1 0 0 10 (-10) 10 0 (1/2)).step
      ⟨0, 0, 0, 0, 0, 1, false, true, WindupMode.NONE⟩).1.b = 1 := by
    simp [PIDController.step, PIDController.stepCore, PIDController.override,
      PIDController.init]
  rw [hb]
  show (1 : ℝ) ≠ (PIDController.init 1 0 0 10 (-10) 10 0 (1/2)).b
  show (1 : ℝ) ≠ 1/2
  norm_num

/-- C9 amended: the fields `kp, ki, kd, umin, umax, u0` and the
`TfTs` are unchanged by every `step` call, but `b` is mutable state: it is
overwritten to `1` on any automatic tick with `ki = 0` and is unchanged
otherwise. -/
theorem config_immutability_amended (c : PIDController) (inp : StepInput) :
    (c.step inp).1.kp = c.kp ∧ (c.step inp).1.ki = c.ki ∧ (c.step inp).1.kd = c.kd ∧
    (c.step inp).1.umin = c.umin ∧ (c.step inp).1.umax = c.umax ∧
    (c.step inp).1.u0 = c.u0 ∧ (c.step inp).1.filter.TfTs = c.filter.TfTs ∧
    (c.step inp).1.b = (if inp.auto_mode = true ∧ c.ki = 0 then 1 else c.b) := by
  simp only [PIDController.step, PIDController.stepCore, PIDController.override]
  by_cases ha : inp.auto_mode = true <;> by_cases hki : c.ki = 0 <;>
    by_cases ht : inp.track = true <;>
      simp [ha, hki, ht, MeasurementFilter.apply, MeasurementFilter.params]

/-- C2 counterexample: invalid execution periods are NOT rejected.  With
`Tx = -1 ≤ 0`, the filter call completes normally and mutates its state
(`initialized` flips to true and `Tx_old` records the invalid period), so
no error is signalled and the pre-call state is not preserved. -/
theorem domain_error_rejection_cex :
    ((-1 : ℝ) ≤ 0) ∧
    ((MeasurementFilter.init 10).Tx_old = none) ∧
    ((MeasurementFilter.init 10).initialized = false) ∧
    (((MeasurementFilter.init 10).apply 0 (-1)).1.Tx_old = some (-1)) ∧
    (((MeasurementFilter.init 10).apply 0 (-1)).1.initialized = true) := by
  refine ⟨by norm_num, rfl, rfl, ?_, ?_⟩ <;>
    simp [MeasurementFilter.apply, MeasurementFilter.params, MeasurementFilter.init]

/-- C2 amended: neither `zoh_Fy` nor the filter validates its arguments.
For any `Tx ≤ 0` the `apply` call executes the ordinary algorithm — it
selects coefficients by the usual uninitialized-or-changed-`Tx` test,
runs the state update, marks the filter initialized and records the
invalid `Tx` — exactly as it does for valid inputs.  Avoiding `Tx ≤ 0`
and `TfTs ≤ 0` is an unchecked caller precondition. -/
theorem domain_error_unvalidated (f : MeasurementFilter) (y Tx : ℝ)
    (h : Tx ≤ 0) :
    (f.apply y Tx).1.initialized = true ∧
    (f.apply y Tx).1.Tx_old = some Tx ∧
    (f.apply y Tx).1.coeffs =
      (if f.initialized = false ∨ f.Tx_old ≠ some Tx then zoh_Fy f.TfTs Tx
       else f.coeffs) ∧
    (f.apply y Tx).2.yf =
      (if f.initialized = false ∨ f.Tx_old ≠ some Tx then zoh_Fy f.TfTs Tx
       else f.coeffs).a11 * f.yf +
      (if f.initialized = false ∨ f.Tx_old ≠ some Tx then zoh_Fy f.TfTs Tx
       else f.coeffs).a12 * f.dyf +
      (if f.initialized = false ∨ f.Tx_old ≠ some Tx then zoh_Fy f.TfTs Tx
       else f.coeffs).b1 * y := by
  refine ⟨?_, ?_, ?_, ?_⟩ <;> simp [MeasurementFilter.apply, MeasurementFilter.params, MeasurementFilter.coeffs]

/-- Witness for the amended C2 at `Tx = -1`. -/
theorem domain_error_unvalidated_witness :
    ((MeasurementFilter.init 10).apply 5 (-1)).1.initialized = true ∧
    ((MeasurementFilter.init 10).apply 5 (-1)).1.Tx_old = some (-1) ∧
    ((MeasurementFilter.init 10).apply 5 (-1)).1.coeffs =
      (if (MeasurementFilter.init 10).initialized = false ∨
          (MeasurementFilter.init 10).Tx_old ≠ some (-1) then
        zoh_Fy (MeasurementFilter.init 10).TfTs (-1)
       else (MeasurementFilter.init 10).coeffs) ∧
    ((MeasurementFilter.init 10).apply 5 (-1)).2.yf =
      (if (MeasurementFilter.init 10).initialized = false ∨
          (MeasurementFilter.init 10).Tx_old ≠ some (-1) then
        zoh_Fy (MeasurementFilter.init 10).TfTs (-1)
       else (MeasurementFilter.init 10).coeffs).a11 * (MeasurementFilter.init 10).yf +
      (if (MeasurementFilter.init 10).initialized = false ∨
          (MeasurementFilter.init 10).Tx_old ≠ some (-1) then
        zoh_Fy (MeasurementFilter.init 10).TfTs (-1)
       else (MeasurementFilter.init 10).coeffs).a12 * (MeasurementFilter.init 10).dyf +
      (if (MeasurementFilter.init 10).initialized = false ∨
          (MeasurementFilter.init 10).Tx_old ≠ some (-1) then
        zoh_Fy (MeasurementFilter.init 10).TfTs (-1)
       else (MeasurementFilter.init 10).coeffs).b1 * 5 :=
  domain_error_unvalidated (MeasurementFilter.init 10) 5 (-1) (by norm_num)

/-- C6: bumpless-tracking formula.  On an automatic tracking tick with
`ki ≠ 0` (so the P/PD override does not fire and the configured `b` is in
effect), the term state is first forced to `u_old = utrack`,
`up_old = ud_old = uff_old = 0`, and the returned signal is the clamp to
`[umin, umax]` of
`utrack + kp*(b*r - yf) + anti_windup(ki*(r - yf)*Tx, windup)
 - kd*dyf/Tx + uff`, where `(yf, dyf)` are the filter outputs of this tick. -/
theorem tracking_mode_formula (c : PIDController) (inp : StepInput)
    (hauto : inp.auto_mode = true) (htrack : inp.track = true)
    (hki : c.ki ≠ 0) :
    (c.step inp).2 =
      max (min (inp.utrack
          + (c.kp * (c.b * inp.r - (c.filter.apply inp.y inp.Tx).2.yf)
            + anti_windup
                (c.ki * (inp.r - (c.filter.apply inp.y inp.Tx).2.yf) * inp.Tx)
                inp.windup
            + -(c.kd * (c.filter.apply inp.y inp.Tx).2.dyf) / inp.Tx
            + inp.uff)) c.umax) c.umin := by
  simp only [PIDController.step, PIDController.stepCore, PIDController.override,
    hauto, htrack, if_true, hki, if_false]
  simp [hki]

/-- The cached-coefficients invariant of the filter: whenever the filter
claims to be initialized, its cache equals the discretizer output for the
recorded `Tx_old` (which is then a real value, not the sentinel). -/
def MeasurementFilter.cacheOK (f : MeasurementFilter) : Prop :=
  f.initialized = true → ∃ t, f.Tx_old = some t ∧ f.coeffs = zoh_Fy f.TfTs t

theorem MeasurementFilter.apply_fst_coeffs (f : MeasurementFilter) (y Tx : ℝ) :
    ((f.apply y Tx).1).coeffs = f.params Tx := rfl

theorem MeasurementFilter.apply_fst_TfTs (f : MeasurementFilter) (y Tx : ℝ) :
    ((f.apply y Tx).1).TfTs = f.TfTs := rfl

theorem MeasurementFilter.params_of_cacheOK (f : MeasurementFilter) (Tx : ℝ)
    (hf : f.cacheOK) : f.params Tx = zoh_Fy f.TfTs Tx := by
  by_cases hcond : f.initialized = false ∨ f.Tx_old ≠ some Tx
  · simp [MeasurementFilter.params, hcond]
  · push_neg at hcond
    obtain ⟨hinit, hTx⟩ := hcond
    obtain ⟨t, ht, hc⟩ := hf (by
      cases hb : f.initialized
      · exact absurd hb hinit
      · rfl)
    rw [ht] at hTx
    obtain rfl : t = Tx := by injection hTx
    simp [MeasurementFilter.params, hinit, ht, hc]

/-- C7: re-discretization cache invariant.  (i) The coefficients used by a
call are recomputed by the discretizer exactly when the filter is
uninitialized or `Tx` differs from `Tx_old`, and are the cached ones
otherwise; (ii) starting from any state satisfying the cache invariant,
after `apply(y, Tx)` the cached coefficients equal `zoh_Fy(TfTs, Tx)` for
the current `Tx`, the filter is initialized, `Tx_old = Tx`, and the
invariant still holds; (iii) a freshly constructed filter satisfies the
invariant; (iv) `reset()` zeroes `yf, dyf`, clears the initialized flag
and restores the sentinel, so the next `apply` re-derives the
coefficients from the discretizer regardless of whether `Tx` changed. -/
theorem rediscretization_cache_invariant (f : MeasurementFilter) (y Tx : ℝ)
    (hf : f.cacheOK) :
    (f.params Tx =
      (if f.initialized = false ∨ f.Tx_old ≠ some Tx then zoh_Fy f.TfTs Tx
       else f.coeffs)) ∧
    ((f.apply y Tx).1).coeffs = zoh_Fy f.TfTs Tx ∧
    ((f.apply y Tx).1).initialized = true ∧
    ((f.apply y Tx).1).Tx_old = some Tx ∧
    ((f.apply y Tx).1).cacheOK ∧
    (∀ TfTs0 : ℝ, (MeasurementFilter.init TfTs0).cacheOK) ∧
    (∀ g : MeasurementFilter,
      g.reset.yf = 0 ∧ g.reset.dyf = 0 ∧ g.reset.initialized = false ∧
      g.reset.Tx_old = none ∧
      (∀ z w : ℝ, ((g.reset.apply z w).1).coeffs = zoh_Fy g.TfTs w)) := by
  have hparams : f.params Tx = zoh_Fy f.TfTs Tx :=
    MeasurementFilter.params_of_cacheOK f Tx hf
  refine ⟨rfl, ?_, rfl, rfl, ?_, ?_, ?_⟩
  · rw [MeasurementFilter.apply_fst_coeffs, hparams]
  · intro _
    refine ⟨Tx, rfl, ?_⟩
    rw [MeasurementFilter.apply_fst_coeffs, MeasurementFilter.apply_fst_TfTs, hparams]
  · intro TfTs0
    intro hbad
    simp [MeasurementFilter.init] at hbad
  · intro g
    refine ⟨rfl, rfl, rfl, rfl, fun z w => ?_⟩
    rw [MeasurementFilter.apply_fst_coeffs]
    simp [MeasurementFilter.params, MeasurementFilter.reset]

/-- Witness for C7 on a fresh filter (which satisfies the invariant). -/
theorem rediscretization_cache_invariant_witness :
    ((MeasurementFilter.init 10).params 1 =
      (if (MeasurementFilter.init 10).initialized = false ∨
          (MeasurementFilter.init 10).Tx_old ≠ some 1 then
        zoh_Fy (MeasurementFilter.init 10).TfTs 1
       else (MeasurementFilter.init 10).coeffs)) ∧
    (((MeasurementFilter.init 10).apply 7 1).1).coeffs =
      zoh_Fy (MeasurementFilter.init 10).TfTs 1 ∧
    (((MeasurementFilter.init 10).apply 7 1).1).initialized = true ∧
    (((MeasurementFilter.init 10).apply 7 1).1).Tx_old = some 1 ∧
    (((MeasurementFilter.init 10).apply 7 1).1).cacheOK ∧
    (∀ TfTs0 : ℝ, (MeasurementFilter.init TfTs0).cacheOK) ∧
    (∀ g : MeasurementFilter,
      g.reset.yf = 0 ∧ g.reset.dyf = 0 ∧ g.reset.initialized = false ∧
      g.reset.Tx_old = none ∧
      (∀ z w : ℝ, ((g.reset.apply z w).1).coeffs = zoh_Fy g.TfTs w)) :=
  rediscretization_cache_invariant (MeasurementFilter.init 10) 7 1
    (by intro hbad; simp [MeasurementFilter.init] at hbad)

/-- Witness for C6 at a concrete PI configuration on a tracking tick. -/
theorem tracking_mode_formula_witness :
    ((PIDController.init 1 (1/2) (1/10) 10 (-10) 10 0 (3/4)).step
        ⟨2, 1, 3, 0, 5, 1, true, true, WindupMode.NONE⟩).2 =
      max (min ((5 : ℝ)
          + ((PIDController.init 1 (1/2) (1/10) 10 (-10) 10 0 (3/4)).kp *
              ((PIDController.init 1 (1/2) (1/10) 10 (-10) 10 0 (3/4)).b * 2 -
                ((PIDController.init 1 (1/2) (1/10) 10 (-10) 10 0 (3/4)).filter.apply 1 1).2.yf)
            + anti_windup
                ((PIDController.init 1 (1/2) (1/10) 10 (-10) 10 0 (3/4)).ki *
                  (2 - ((PIDController.init 1 (1/2) (1/10) 10 (-10) 10 0 (3/4)).filter.apply 1 1).2.yf) * 1)
                WindupMode.NONE
            + -((PIDController.init 1 (1/2) (1/10) 10 (-10) 10 0 (3/4)).kd *
                ((PIDController.init 1 (1/2) (1/10) 10 (-10) 10 0 (3/4)).filter.apply 1 1).2.dyf) / 1
            + 3)) (PIDController.init 1 (1/2) (1/10) 10 (-10) 10 0 (3/4)).umax)
        (PIDController.init 1 (1/2) (1/10) 10 (-10) 10 0 (3/4)).umin :=
  tracking_mode_formula (PIDController.init 1 (1/2) (1/10) 10 (-10) 10 0 (3/4))
    ⟨2, 1, 3, 0, 5, 1, true, true, WindupMode.NONE⟩ rfl rfl
    (by norm_num [PIDController.init])

/-- C3: discretizer correctness.  For `TfTs > 0` and `Tx > 0`, `zoh_Fy`
returns exactly the six coefficients `a11 = h2 + h3`, `a12 = h2`,
`a21 = -h4`, `a22 = h2 - h3`, `b1 = 1 - h2 - h3`, `b2 = h4` built from
`h1 = Tx/TfTs`, `h2 = exp(-h1)`, `h3 = h1*h2`, `h4 = h3/TfTs`; it is a
pure function of its two arguments.  At `TfTs = 10`, `Tx = 1` the
coefficients match the quoted decimal approximations (within `10⁻⁶`, and
within `10⁻⁸` for the two small ones). -/
theorem zoh_Fy_correct (TfTs Tx : ℝ) (hT : 0 < TfTs) (hx : 0 < Tx) :
    ((zoh_Fy TfTs Tx).a11
        = Real.exp (-(Tx/TfTs)) + Tx/TfTs * Real.exp (-(Tx/TfTs)) ∧
      (zoh_Fy TfTs Tx).a12 = Real.exp (-(Tx/TfTs)) ∧
      (zoh_Fy TfTs Tx).a21 = -(Tx/TfTs * Real.exp (-(Tx/TfTs)) / TfTs) ∧
      (zoh_Fy TfTs Tx).a22
        = Real.exp (-(Tx/TfTs)) - Tx/TfTs * Real.exp (-(Tx/TfTs)) ∧
      (zoh_Fy TfTs Tx).b1
        = 1 - Real.exp (-(Tx/TfTs)) - Tx/TfTs * Real.exp (-(Tx/TfTs)) ∧
      (zoh_Fy TfTs Tx).b2 = Tx/TfTs * Real.exp (-(Tx/TfTs)) / TfTs) ∧
    (|(zoh_Fy 10 1).a11 - 0.995321| < 1/1000000 ∧
      |(zoh_Fy 10 1).a12 - 0.904837| < 1/1000000 ∧
      |(zoh_Fy 10 1).a21 - (-0.00904837)| < 1/100000000 ∧
      |(zoh_Fy 10 1).a22 - 0.814354| < 1/1000000 ∧
      |(zoh_Fy 10 1).b1 - 0.004679| < 1/1000000 ∧
      |(zoh_Fy 10 1).b2 - 0.00904837| < 1/100000000) := by
  have hx1 : |(-(1/10) : ℝ)| ≤ 1 := by
    rw [abs_neg, abs_of_nonneg] <;> norm_num
  have hb := Real.exp_bound hx1 (n := 6) (by norm_num)
  have hsum : ∑ m ∈ Finset.range 6, (-(1/10):ℝ) ^ m / m.factorial
      = 10858049/12000000 := by
    simp [Finset.sum_range_succ, Nat.factorial]
    norm_num
  have habs : |(-(1/10) : ℝ)| = 1/10 := by
    rw [abs_neg, abs_of_nonneg] <;> norm_num
  rw [hsum, habs] at hb
  have hb2 : |Real.exp (-(1/10)) - 10858049/12000000| ≤ 7/4320000000 := by
    refine le_trans hb ?_
    norm_num [Nat.factorial]
  have h3 := abs_le.mp hb2
  have hlo : (904837415/1000000000 : ℝ) ≤ Real.exp (-(1/10)) := by
    linarith [h3.1]
  have hhi : Real.exp (-(1/10)) ≤ (904837419/1000000000 : ℝ) := by
    linarith [h3.2]
  constructor
  · exact ⟨rfl, rfl, rfl, rfl, rfl, rfl⟩
  · refine ⟨?_, ?_, ?_, ?_, ?_, ?_⟩ <;>
      · simp only [zoh_Fy]
        rw [abs_lt]
        constructor <;> norm_num <;> linarith

/-- Witness for C3 at `TfTs = 10`, `Tx = 1`. -/
theorem zoh_Fy_correct_witness :
    ((zoh_Fy 10 1).a11
        = Real.exp (-((1:ℝ)/10)) + (1:ℝ)/10 * Real.exp (-((1:ℝ)/10)) ∧
      (zoh_Fy 10 1).a12 = Real.exp (-((1:ℝ)/10)) ∧
      (zoh_Fy 10 1).a21 = -((1:ℝ)/10 * Real.exp (-((1:ℝ)/10)) / 10) ∧
      (zoh_Fy 10 1).a22
        = Real.exp (-((1:ℝ)/10)) - (1:ℝ)/10 * Real.exp (-((1:ℝ)/10)) ∧
      (zoh_Fy 10 1).b1
        = 1 - Real.exp (-((1:ℝ)/10)) - (1:ℝ)/10 * Real.exp (-((1:ℝ)/10)) ∧
      (zoh_Fy 10 1).b2 = (1:ℝ)/10 * Real.exp (-((1:ℝ)/10)) / 10) ∧
    (|(zoh_Fy 10 1).a11 - 0.995321| < 1/1000000 ∧
      |(zoh_Fy 10 1).a12 - 0.904837| < 1/1000000 ∧
      |(zoh_Fy 10 1).a21 - (-0.00904837)| < 1/100000000 ∧
      |(zoh_Fy 10 1).a22 - 0.814354| < 1/1000000 ∧
      |(zoh_Fy 10 1).b1 - 0.004679| < 1/1000000 ∧
      |(zoh_Fy 10 1).b2 - 0.00904837| < 1/100000000) :=
  zoh_Fy_correct 10 1 (by norm_num) (by norm_num)

theorem MeasurementFilter.apply_snd_yf (f : MeasurementFilter) (y Tx : ℝ) :
    (f.apply y Tx).2.yf =
      (f.params Tx).a11 * f.yf + (f.params Tx).a12 * f.dyf
        + (f.params Tx).b1 * y := rfl

theorem MeasurementFilter.apply_snd_dyf (f : MeasurementFilter) (y Tx : ℝ) :
    (f.apply y Tx).2.dyf =
      (f.params Tx).a21 * f.yf + (f.params Tx).a22 * f.dyf
        + (f.params Tx).b2 * y := rfl

/-- Observational agreement of two filter states: everything equal except
the cached coefficients, which must agree only once the filter claims to
be initialized (an uninitialized filter never reads its cache). -/
def FilterBisim (f1 f2 : MeasurementFilter) : Prop :=
  f1.TfTs = f2.TfTs ∧ f1.yf = f2.yf ∧ f1.dyf = f2.dyf ∧
  f1.Tx_old = f2.Tx_old ∧ f1.initialized = f2.initialized ∧
  (f1.initialized = true → f1.coeffs = f2.coeffs)

theorem FilterBisim.params_eq {f1 f2 : MeasurementFilter}
    (h : FilterBisim f1 f2) (Tx : ℝ) : f1.params Tx = f2.params Tx := by
  obtain ⟨hT, hyf, hdyf, hTx, hinit, hco⟩ := h
  unfold MeasurementFilter.params
  by_cases hcond : f1.initialized = false ∨ f1.Tx_old ≠ some Tx
  · rw [if_pos hcond, if_pos (by rw [← hinit, ← hTx]; exact hcond), hT]
  · have hcond2 : ¬(f2.initialized = false ∨ f2.Tx_old ≠ some Tx) := by
      rw [← hinit, ← hTx]; exact hcond
    rw [if_neg hcond, if_neg hcond2]
    push_neg at hcond
    refine hco ?_
    cases hB : f1.initialized
    · exact absurd hB hcond.1
    · rfl

theorem FilterBisim.apply_bisim {f1 f2 : MeasurementFilter}
    (h : FilterBisim f1 f2) (y Tx : ℝ) :
    (f1.apply y Tx).2.yf = (f2.apply y Tx).2.yf ∧
    (f1.apply y Tx).2.dyf = (f2.apply y Tx).2.dyf ∧
    FilterBisim (f1.apply y Tx).1 (f2.apply y Tx).1 := by
  have hp := h.params_eq Tx
  obtain ⟨hT, hyf, hdyf, hTx, hinit, hco⟩ := h
  have hy2 : (f1.apply y Tx).2.yf = (f2.apply y Tx).2.yf := by
    rw [MeasurementFilter.apply_snd_yf, MeasurementFilter.apply_snd_yf,
      hp, hyf, hdyf]
  have hd2 : (f1.apply y Tx).2.dyf = (f2.apply y Tx).2.dyf := by
    rw [MeasurementFilter.apply_snd_dyf, MeasurementFilter.apply_snd_dyf,
      hp, hyf, hdyf]
  refine ⟨hy2, hd2, ⟨?_, hy2, hd2, rfl, rfl, fun _ => ?_⟩⟩
  · rw [MeasurementFilter.apply_fst_TfTs, MeasurementFilter.apply_fst_TfTs, hT]
  · rw [MeasurementFilter.apply_fst_coeffs, MeasurementFilter.apply_fst_coeffs, hp]

/-- Observational agreement of two controller states: all fields equal
except the mutable setpoint weight `b` and the proportional term state
`up_old` — which are required to agree only when `ki ≠ 0` (when `ki = 0`
every automatic tick overwrites both before they are read, and manual
ticks do not read them when producing the output). -/
def CtrlBisim (c1 c2 : PIDController) : Prop :=
  c1.kp = c2.kp ∧ c1.ki = c2.ki ∧ c1.kd = c2.kd ∧ c1.umin = c2.umin ∧
  c1.umax = c2.umax ∧ c1.u0 = c2.u0 ∧ c1.u_old = c2.u_old ∧
  c1.ud_old = c2.ud_old ∧ c1.uff_old = c2.uff_old ∧
  FilterBisim c1.filter c2.filter ∧
  (c1.ki ≠ 0 → c1.b = c2.b ∧ c1.up_old = c2.up_old)

theorem PIDController.override_config (c : PIDController) (inp : StepInput) :
    (c.override inp).kp = c.kp ∧ (c.override inp).ki = c.ki ∧
    (c.override inp).kd = c.kd ∧ (c.override inp).umin = c.umin ∧
    (c.override inp).umax = c.umax ∧ (c.override inp).u0 = c.u0 ∧
    (c.override inp).filter = c.filter := by
  unfold PIDController.override
  by_cases h1 : inp.auto_mode = true <;> by_cases h2 : c.ki = 0 <;>
    by_cases h3 : inp.track = true <;> simp [h1, h2, h3]

theorem PIDController.override_b (c : PIDController) (inp : StepInput) :
    (c.override inp).b =
      if inp.auto_mode = true ∧ c.ki = 0 then 1 else c.b := by
  unfold PIDController.override
  by_cases h1 : inp.auto_mode = true <;> by_cases h2 : c.ki = 0 <;>
    by_cases h3 : inp.track = true <;> simp [h1, h2, h3]

theorem PIDController.override_u_old (c : PIDController) (inp : StepInput) :
    (c.override inp).u_old =
      if inp.auto_mode = true then
        (if inp.track = true then inp.utrack
         else if c.ki = 0 then c.u0 else c.u_old)
      else c.u_old := by
  unfold PIDController.override
  by_cases h1 : inp.auto_mode = true <;> by_cases h2 : c.ki = 0 <;>
    by_cases h3 : inp.track = true <;> simp [h1, h2, h3]

theorem PIDController.override_up_old (c : PIDController) (inp : StepInput) :
    (c.override inp).up_old =
      if inp.auto_mode = true ∧ (c.ki = 0 ∨ inp.track = true) then 0
      else c.up_old := by
  unfold PIDController.override
  by_cases h1 : inp.auto_mode = true <;> by_cases h2 : c.ki = 0 <;>
    by_cases h3 : inp.track = true <;> simp [h1, h2, h3]

theorem PIDController.override_ud_old (c : PIDController) (inp : StepInput) :
    (c.override inp).ud_old =
      if inp.auto_mode = true ∧ (c.ki = 0 ∨ inp.track = true) then 0
      else c.ud_old := by
  unfold PIDController.override
  by_cases h1 : inp.auto_mode = true <;> by_cases h2 : c.ki = 0 <;>
    by_cases h3 : inp.track = true <;> simp [h1, h2, h3]

theorem PIDController.override_uff_old (c : PIDController) (inp : StepInput) :
    (c.override inp).uff_old =
      if inp.auto_mode = true ∧ (c.ki = 0 ∨ inp.track = true) then 0
      else c.uff_old := by
  unfold PIDController.override
  by_cases h1 : inp.auto_mode = true <;> by_cases h2 : c.ki = 0 <;>
    by_cases h3 : inp.track = true <;> simp [h1, h2, h3]

theorem PIDController.stepCore_snd (c : PIDController) (inp : StepInput)
    (F : MeasurementFilter) (yf dyf : ℝ) :
    (c.stepCore inp F yf dyf).2 =
      max (min (if inp.auto_mode = true then
          (c.override inp).u_old +
            (((c.override inp).kp * ((c.override inp).b * inp.r - yf)
                - (c.override inp).up_old)
              + anti_windup ((c.override inp).ki * (inp.r - yf) * inp.Tx)
                  inp.windup
              + (-(c.override inp).kd * dyf - (c.override inp).ud_old) / inp.Tx
              + (inp.uff - (c.override inp).uff_old))
        else inp.uman) c.umax) c.umin := rfl

theorem CtrlBisim.stepCore_bisim {c1 c2 : PIDController}
    (h : CtrlBisim c1 c2) (inp : StepInput) (F1 F2 : MeasurementFilter)
    (yf dyf : ℝ) (hF : FilterBisim F1 F2) :
    (c1.stepCore inp F1 yf dyf).2 = (c2.stepCore inp F2 yf dyf).2 ∧
    CtrlBisim (c1.stepCore inp F1 yf dyf).1 (c2.stepCore inp F2 yf dyf).1 := by
  obtain ⟨hkp, hki, hkd, humin, humax, hu0, huold, hud, huff, _, hcond⟩ := h
  obtain ⟨ho1kp, ho1ki, ho1kd, ho1umin, ho1umax, ho1u0, ho1f⟩ :=
    c1.override_config inp
  obtain ⟨ho2kp, ho2ki, ho2kd, ho2umin, ho2umax, ho2u0, ho2f⟩ :=
    c2.override_config inp
  have hou : (c1.override inp).u_old = (c2.override inp).u_old := by
    rw [PIDController.override_u_old, PIDController.override_u_old, hki, hu0,
      huold]
  have houd : (c1.override inp).ud_old = (c2.override inp).ud_old := by
    rw [PIDController.override_ud_old, PIDController.override_ud_old, hki, hud]
  have houff : (c1.override inp).uff_old = (c2.override inp).uff_old := by
    rw [PIDController.override_uff_old, PIDController.override_uff_old, hki,
      huff]
  have hob : inp.auto_mode = true →
      (c1.override inp).b = (c2.override inp).b := by
    intro ha
    rw [PIDController.override_b, PIDController.override_b, hki]
    by_cases hki0 : c2.ki = 0
    · rw [if_pos ⟨ha, hki0⟩, if_pos ⟨ha, hki0⟩]
    · rw [if_neg (fun hh => hki0 hh.2), if_neg (fun hh => hki0 hh.2)]
      exact (hcond (fun hh => hki0 (hki ▸ hh))).1
  have houp : inp.auto_mode = true →
      (c1.override inp).up_old = (c2.override inp).up_old := by
    intro ha
    rw [PIDController.override_up_old, PIDController.override_up_old, hki]
    by_cases hc : c2.ki = 0 ∨ inp.track = true
    · rw [if_pos ⟨ha, hc⟩, if_pos ⟨ha, hc⟩]
    · rw [if_neg (fun hh => hc hh.2), if_neg (fun hh => hc hh.2)]
      exact (hcond (fun hh => hc (Or.inl (hki ▸ hh)))).2
  have hob_all : c1.ki ≠ 0 →
      (c1.override inp).b = (c2.override inp).b := by
    intro hne
    have hne2 : ¬ c2.ki = 0 := fun hh => hne (hki ▸ hh)
    rw [PIDController.override_b, PIDController.override_b, hki]
    rw [if_neg (fun hh => hne2 hh.2), if_neg (fun hh => hne2 hh.2)]
    exact (hcond hne).1
  have hout : (c1.stepCore inp F1 yf dyf).2 = (c2.stepCore inp F2 yf dyf).2 := by
    rw [PIDController.stepCore_snd, PIDController.stepCore_snd, humin, humax]
    by_cases ha : inp.auto_mode = true
    · rw [if_pos ha, if_pos ha, hou, ho1kp, ho2kp, hkp, hob ha, ho1ki, ho2ki,
        hki, ho1kd, ho2kd, hkd, houp ha, houd, houff]
    · rw [if_neg ha, if_neg ha]
  refine ⟨hout, ?_, ?_, ?_, ?_, ?_, ?_, hout, ?_, rfl, hF, ?_⟩
  · show (c1.override inp).kp = (c2.override inp).kp
    rw [ho1kp, ho2kp, hkp]
  · show (c1.override inp).ki = (c2.override inp).ki
    rw [ho1ki, ho2ki, hki]
  · show (c1.override inp).kd = (c2.override inp).kd
    rw [ho1kd, ho2kd, hkd]
  · show (c1.override inp).umin = (c2.override inp).umin
    rw [ho1umin, ho2umin, humin]
  · show (c1.override inp).umax = (c2.override inp).umax
    rw [ho1umax, ho2umax, humax]
  · show (c1.override inp).u0 = (c2.override inp).u0
    rw [ho1u0, ho2u0, hu0]
  · show -(c1.override inp).kd * dyf = -(c2.override inp).kd * dyf
    rw [ho1kd, ho2kd, hkd]
  · intro hne
    have hne1 : c1.ki ≠ 0 := fun hh => hne (by
      show (c1.override inp).ki = 0
      rw [ho1ki]
      exact hh)
    constructor
    · show (c1.override inp).b = (c2.override inp).b
      exact hob_all hne1
    · show (c1.override inp).kp * ((c1.override inp).b * inp.r - yf) =
        (c2.override inp).kp * ((c2.override inp).b * inp.r - yf)
      rw [ho1kp, ho2kp, hkp, hob_all hne1]

theorem CtrlBisim.step_bisim {c1 c2 : PIDController} (h : CtrlBisim c1 c2)
    (inp : StepInput) :
    (c1.step inp).2 = (c2.step inp).2 ∧
    CtrlBisim (c1.step inp).1 (c2.step inp).1 := by
  obtain ⟨hy, hd, hF2⟩ :=
    (h.2.2.2.2.2.2.2.2.2.1).apply_bisim inp.y inp.Tx
  have key := CtrlBisim.stepCore_bisim h inp
      (c1.filter.apply inp.y inp.Tx).1 (c2.filter.apply inp.y inp.Tx).1
      ((c1.filter.apply inp.y inp.Tx).2.yf)
      ((c1.filter.apply inp.y inp.Tx).2.dyf) hF2
  constructor
  · show (c1.stepCore inp (c1.filter.apply inp.y inp.Tx).1
        ((c1.filter.apply inp.y inp.Tx).2.yf)
        ((c1.filter.apply inp.y inp.Tx).2.dyf)).2 =
      (c2.stepCore inp (c2.filter.apply inp.y inp.Tx).1
        ((c2.filter.apply inp.y inp.Tx).2.yf)
        ((c2.filter.apply inp.y inp.Tx).2.dyf)).2
    rw [← hy, ← hd]
    exact key.1
  · show CtrlBisim
      (c1.stepCore inp (c1.filter.apply inp.y inp.Tx).1
        ((c1.filter.apply inp.y inp.Tx).2.yf)
        ((c1.filter.apply inp.y inp.Tx).2.dyf)).1
      (c2.stepCore inp (c2.filter.apply inp.y inp.Tx).1
        ((c2.filter.apply inp.y inp.Tx).2.yf)
        ((c2.filter.apply inp.y inp.Tx).2.dyf)).1
    rw [← hy, ← hd]
    exact key.2

theorem CtrlBisim.run_bisim {c1 c2 : PIDController} (h : CtrlBisim c1 c2)
    (l : List StepInput) :
    (c1.run l).1 = (c2.run l).1 ∧ CtrlBisim (c1.run l).2 (c2.run l).2 := by
  induction l generalizing c1 c2 with
  | nil => exact ⟨rfl, h⟩
  | cons i is ih =>
      obtain ⟨ho, hs⟩ := h.step_bisim i
      obtain ⟨hl, hr⟩ := ih hs
      constructor
      · show (c1.step i).2 :: ((c1.step i).1.run is).1 =
          (c2.step i).2 :: ((c2.step i).1.run is).1
        rw [ho, hl]
      · show CtrlBisim ((c1.step i).1.run is).2 ((c2.step i).1.run is).2
        exact hr

/-- C8: setpoint-weight noninterference under `ki = 0`.  Two controllers
identical except for the configured setpoint weights `b` and `bP`, with
`ki = 0`, produce identical output sequences on every input sequence
(any mix of automatic, manual and tracking ticks): on every automatic
tick the `ki == 0` branch forces `u_old = u0`,
`up_old = ud_old = uff_old = 0` and `b = 1` before the increments are
computed, and manual ticks do not read `b` when producing the output. -/
theorem setpoint_weight_noninterference (kp kd TfTs umin umax u0 b bP : ℝ)
    (inputs : List StepInput) :
    ((PIDController.init kp 0 kd TfTs umin umax u0 b).run inputs).1 =
      ((PIDController.init kp 0 kd TfTs umin umax u0 bP).run inputs).1 := by
  have h : CtrlBisim (PIDController.init kp 0 kd TfTs umin umax u0 b)
      (PIDController.init kp 0 kd TfTs umin umax u0 bP) :=
    ⟨rfl, rfl, rfl, rfl, rfl, rfl, rfl, rfl, rfl,
      ⟨rfl, rfl, rfl, rfl, rfl, fun _ => rfl⟩,
      fun hne => absurd rfl hne⟩
  exact (h.run_bisim inputs).1

theorem PIDController.step_preserves (c : PIDController) (inp : StepInput) :
    (c.step inp).1.kp = c.kp ∧ (c.step inp).1.ki = c.ki ∧
    (c.step inp).1.kd = c.kd ∧ (c.step inp).1.umin = c.umin ∧
    (c.step inp).1.umax = c.umax ∧ (c.step inp).1.u0 = c.u0 ∧
    (c.step inp).1.filter.TfTs = c.filter.TfTs ∧
    (c.ki ≠ 0 → (c.step inp).1.b = c.b) := by
  obtain ⟨hokp, hoki, hokd, houmin, houmax, hou0, hof⟩ := c.override_config inp
  refine ⟨hokp, hoki, hokd, houmin, houmax, hou0, ?_, ?_⟩
  · exact MeasurementFilter.apply_fst_TfTs c.filter inp.y inp.Tx
  · intro hne
    show (c.override inp).b = c.b
    rw [PIDController.override_b]
    exact if_neg (fun hh => hne hh.2)

theorem PIDController.run_preserves (c : PIDController) (l : List StepInput) :
    (c.run l).2.kp = c.kp ∧ (c.run l).2.ki = c.ki ∧
    (c.run l).2.kd = c.kd ∧ (c.run l).2.umin = c.umin ∧
    (c.run l).2.umax = c.umax ∧ (c.run l).2.u0 = c.u0 ∧
    (c.run l).2.filter.TfTs = c.filter.TfTs ∧
    (c.ki ≠ 0 → (c.run l).2.b = c.b) := by
  induction l generalizing c with
  | nil => exact ⟨rfl, rfl, rfl, rfl, rfl, rfl, rfl, fun _ => rfl⟩
  | cons i is ih =>
      obtain ⟨hkp, hki, hkd, humin, humax, hu0, hT, hb⟩ := c.step_preserves i
      obtain ⟨ikp, iki, ikd, iumin, iumax, iu0, iT, ib⟩ := ih (c.step i).1
      refine ⟨?_, ?_, ?_, ?_, ?_, ?_, ?_, ?_⟩
      · show ((c.step i).1.run is).2.kp = c.kp
        rw [ikp, hkp]
      · show ((c.step i).1.run is).2.ki = c.ki
        rw [iki, hki]
      · show ((c.step i).1.run is).2.kd = c.kd
        rw [ikd, hkd]
      · show ((c.step i).1.run is).2.umin = c.umin
        rw [iumin, humin]
      · show ((c.step i).1.run is).2.umax = c.umax
        rw [iumax, humax]
      · show ((c.step i).1.run is).2.u0 = c.u0
        rw [iu0, hu0]
      · show ((c.step i).1.run is).2.filter.TfTs = c.filter.TfTs
        rw [iT, hT]
      · intro hne
        show ((c.step i).1.run is).2.b = c.b
        have hne1 : (c.step i).1.ki ≠ 0 := by
          rw [hki]
          exact hne
        rw [ib hne1, hb hne]

/-- C10: `reset()` restores fresh behavior.  For every configuration and
input sequences `s` and `sP`, running `s`, calling `reset()`, and then
running `sP` yields exactly the output sequence a freshly constructed
controller produces on `sP` — even though `reset()` does not restore the
mutable weight `b` after a `ki == 0` override (harmless, since with
`ki = 0` every automatic tick re-forces `b = 1` and manual outputs do not
read `b`), and the stale cached filter coefficients survive `reset()`
(harmless, since the cleared `initialized` flag forces re-discretization
on the next `apply`). -/
theorem reset_restores_fresh_behavior (kp ki kd TfTs umin umax u0 b : ℝ)
    (s sP : List StepInput) :
    ((((PIDController.init kp ki kd TfTs umin umax u0 b).run s).2).reset.run sP).1 =
      ((PIDController.init kp ki kd TfTs umin umax u0 b).run sP).1 := by
  obtain ⟨rkp, rki, rkd, rumin, rumax, ru0, rT, rb⟩ :=
    (PIDController.init kp ki kd TfTs umin umax u0 b).run_preserves s
  have h : CtrlBisim
      ((((PIDController.init kp ki kd TfTs umin umax u0 b).run s).2).reset)
      (PIDController.init kp ki kd TfTs umin umax u0 b) := by
    refine ⟨rkp, rki, rkd, rumin, rumax, ru0, rfl, rfl, rfl,
      ⟨rT, rfl, rfl, rfl, rfl, ?_⟩, ?_⟩
    · intro hh
      simp [PIDController.reset, MeasurementFilter.reset] at hh
    · intro hne
      have hne0 : (PIDController.init kp ki kd TfTs umin umax u0 b).ki ≠ 0 := by
        intro hh
        exact hne (by
          show (((PIDController.init kp ki kd TfTs umin umax u0 b).run s).2).ki = 0
          rw [rki]
          exact hh)
      exact ⟨rb hne0, rfl⟩
  exact (h.run_bisim sP).1
